import Mathlib

/-!
Shallow embedding of the reference-counted mutable resource cache of the
Theia AI-chat packages:

* `DisposableMutableResource`, `DisposableRefCounter` and the
  `UpdatableReferenceResource` facade from
  `packages/ai-core/src/common/ai-variable-resource.ts`;
* the registry `ChangeSetFileResourceResolver` from
  `packages/ai-chat/src/browser/change-set-file-resource.ts`.

Modelling conventions:

* JavaScript save callbacks are identified by a numeric id (`CbId`);
  `!==` on function references is equality of ids, `undefined` is `none`.
* A payload that is still a pending `Promise<string>` is `ContentsVal.pending s`
  where `s` is the string the promise resolves to; a plain string is
  `ContentsVal.str s`.  JavaScript `!==` between a string and a promise is
  always true, and `readContents` (`Promise.resolve`) resolves the pending
  value.
* Observable effects are an event list: `Event.notify rid` when a holder's
  change emitter actually fires to its listeners (nothing is recorded once the
  emitter is disposed, since no listener can observe a fire then), and
  `Event.saveCall cb s` when a save callback is invoked.
* The registry's `Map` is an association list with JavaScript `Map` semantics;
  reference counters live in an append-only store `counters`, and a handle is
  the index of its counter (handles keep counters alive even after the cache
  entry is gone, exactly as in the source).
-/

namespace Theia

/-- Identity of a JavaScript save-callback function (reference identity). -/
abbrev CbId := Nat

/-- A payload: either a plain string or a pending promise of a string. -/
inductive ContentsVal where
  | str (s : String)
  | pending (s : String)
deriving DecidableEq, Repr

/-- The string a payload resolves to (`Promise.resolve` in `readContents`). -/
def ContentsVal.resolved : ContentsVal → String
  | .str s => s
  | .pending s => s

/-- JavaScript `newContents !== this.contents` for a string `newContents`:
a string differs from a promise always, and from a string by value. -/
def jsDiffers (x : String) : ContentsVal → Bool
  | .str s => x ≠ s
  | .pending _ => true

/-- `ResourceInitializationOptions` of `ai-variable-resource.ts`:
`Pick<Resource, 'autosaveable' | 'initiallyDirty' | 'readOnly'>`
plus optional `contents` and `onSave`.  `none` is an absent field. -/
structure InitOptions where
  contents : Option ContentsVal := none
  onSave : Option CbId := none
  readOnly : Option Bool := none
  autosaveable : Option Bool := none
  initiallyDirty : Option Bool := none
deriving DecidableEq, Repr

/-- `ResourceUpdateOptions`: partial patch of `contents` and `onSave`.
`onSaveProvided` models the JavaScript test `'onSave' in options` (the key may
be present with value `undefined`, which is `onSaveProvided = true`,
`onSave = none`). -/
structure UpdateOptions where
  contents : Option String := none
  onSaveProvided : Bool := false
  onSave : Option CbId := none
deriving DecidableEq, Repr

/-- Observable events of a run. -/
inductive Event where
  | notify (rid : Nat)
  | saveCall (cb : CbId) (contents : String)
deriving DecidableEq, Repr

/-- `DisposableMutableResource`: uri, the captured constructor `options`
(a `readonly` field in the source), the mutable `onSave` and `contents`
fields, and whether `onDidChangeContentsEmitter` has been disposed.
`rid` is the JavaScript object identity of the instance (used to tag its
notifications). -/
structure DisposableMutableResource where
  rid : Nat
  uri : String
  options : InitOptions
  onSave : Option CbId
  contents : ContentsVal
  emitterDisposed : Bool
deriving DecidableEq, Repr

namespace DisposableMutableResource

/-- The constructor: `this.onSave = options?.onSave;
this.contents = options?.contents ?? ''`. -/
def mk0 (rid : Nat) (uri : String) (opts : InitOptions) : DisposableMutableResource :=
  { rid := rid
    uri := uri
    options := opts
    onSave := opts.onSave
    contents := opts.contents.getD (.str "")
    emitterDisposed := false }

/-- `get readOnly(): ... return this.options?.readOnly || !this.onSave`
(JavaScript truthiness of the result). -/
def readOnly (r : DisposableMutableResource) : Bool :=
  r.options.readOnly.getD false || r.onSave.isNone

/-- `get autosaveable(): return this.options?.autosaveable !== false`. -/
def autosaveable (r : DisposableMutableResource) : Bool :=
  r.options.autosaveable.getD true

/-- `get initiallyDirty(): return !!this.options?.initiallyDirty`. -/
def initiallyDirty (r : DisposableMutableResource) : Bool :=
  r.options.initiallyDirty.getD false

/-- `readContents(): return Promise.resolve(this.contents)` — the resolved
string. -/
def readContents (r : DisposableMutableResource) : String :=
  r.contents.resolved

/-- The emitter fire: listeners observe it only while the emitter is live. -/
def fireEvents (r : DisposableMutableResource) : List Event :=
  if r.emitterDisposed then [] else [Event.notify r.rid]

/-- `update(options)`: replace `contents` and fire when the new contents is
present and differs; replace the `onSave` field when the key is present and
the value differs. -/
def update (r : DisposableMutableResource) (o : UpdateOptions) :
    DisposableMutableResource × List Event :=
  let p :=
    match o.contents with
    | some c =>
        if jsDiffers c r.contents then
          ({ r with contents := .str c }, r.fireEvents)
        else (r, [])
    | none => (r, [])
  let r1 := p.1
  if o.onSaveProvided && (o.onSave != r1.onSave) then
    ({ r1 with onSave := o.onSave }, p.2)
  else (r1, p.2)

/-- `saveContents(contents)`: `if (this.options?.onSave) await
this.options.onSave(contents); this.update(\x7b contents \x7d)`.
Note the guard and the invocation use the constructor-time
`this.options.onSave`, not the mutable `this.onSave` field. -/
def saveContents (r : DisposableMutableResource) (c : String) :
    DisposableMutableResource × List Event :=
  match r.options.onSave with
  | some cb =>
      let p := r.update { contents := some c }
      (p.1, Event.saveCall cb c :: p.2)
  | none => (r, [])

/-- `dispose(): this.onDidChangeContentsEmitter.dispose()`. -/
def dispose (r : DisposableMutableResource) : DisposableMutableResource :=
  { r with emitterDisposed := true }

end DisposableMutableResource

/-- `DisposableRefCounter<DisposableMutableResource>`: the wrapped object,
the `refs` count (an ordinary JavaScript number: it can go negative), the
key captured by the `onDispose` closure (the closure deletes exactly this key
from the cache), and how many times `onDispose` has run. -/
structure DisposableRefCounter where
  refs : Int
  key : String
  object : DisposableMutableResource
  firedCount : Nat
deriving DecidableEq, Repr

/-- `ChangeSetFileResourceResolver`: the cache map from `uri.toString()` to
the handle, and the store of all reference counters ever created (a handle is
an index into `counters`; handles outlive their cache entry). -/
structure Resolver where
  counters : List DisposableRefCounter
  cache : List (String × Nat)
deriving DecidableEq, Repr

/-- The two failure kinds of the registry. -/
inductive ResolverError where
  | duplicateRegistration (key : String)
  | unknownIdentifier (key : String)
deriving DecidableEq, Repr

/-- Association-list lookup with JavaScript `Map.get` semantics. -/
def lookupKey (m : List (String × Nat)) (k : String) : Option Nat :=
  match m with
  | [] => none
  | (k', v) :: rest => if k' = k then some v else lookupKey rest k

/-- `Map.set`: replace the binding if the key exists, else append. -/
def setKey (m : List (String × Nat)) (k : String) (v : Nat) : List (String × Nat) :=
  match m with
  | [] => [(k, v)]
  | (k', v') :: rest => if k' = k then (k, v) :: rest else (k', v') :: setKey rest k v

/-- `Map.delete`. -/
def delKey (m : List (String × Nat)) (k : String) : List (String × Nat) :=
  m.filter (fun p => p.1 ≠ k)

/-- Pointwise modification of the counter at index `h`. -/
def modifyAt (l : List DisposableRefCounter) (n : Nat)
    (f : DisposableRefCounter → DisposableRefCounter) : List DisposableRefCounter :=
  match l, n with
  | [], _ => []
  | a :: l, 0 => f a :: l
  | a :: l, n + 1 => a :: modifyAt l n f

/-- The empty registry. -/
def resolver0 : Resolver := { counters := [], cache := [] }

/-- `add(uri, options)`: throw on a live key, else create the underlying
resource, wrap it in a fresh counter via `DisposableRefCounter.create`
(`refs = 0` then the static `acquire`, so count 1), cache it and return the
handle.  On error the state is returned unchanged (the throw precedes any
mutation). -/
def addOp (s : Resolver) (uri : String) (opts : InitOptions) :
    Except ResolverError Nat × Resolver :=
  if (lookupKey s.cache uri).isSome then
    (.error (.duplicateRegistration uri), s)
  else
    let h := s.counters.length
    let res := DisposableMutableResource.mk0 h uri opts
    let rc : DisposableRefCounter := { refs := 0 + 1, key := uri, object := res, firedCount := 0 }
    (.ok h, { counters := s.counters ++ [rc], cache := setKey s.cache uri h })

/-- `resolve(uri)`: throw on a missing key, else
`UpdatableReferenceResource.acquire` (the static `acquire` on the counter:
`refs++`) and return the same handle. -/
def resolveOp (s : Resolver) (uri : String) : Except ResolverError Nat × Resolver :=
  match lookupKey s.cache uri with
  | some h =>
      (.ok h, { s with counters := modifyAt s.counters h (fun rc => { rc with refs := rc.refs + 1 }) })
  | none => (.error (.unknownIdentifier uri), s)

/-- `tryGet(uri)`: `try return this.resolve(uri) catch return undefined`. -/
def tryGetOp (s : Resolver) (uri : String) : Option Nat × Resolver :=
  match resolveOp s uri with
  | (.ok h, s') => (some h, s')
  | (.error _, s') => (none, s')

/-- `update(uri, contents)`: throw on a missing key, else
`resource.update(\x7b contents \x7d)` on the cached handle. -/
def updateKeyOp (s : Resolver) (uri : String) (c : String) :
    Except ResolverError Unit × Resolver × List Event :=
  match lookupKey s.cache uri with
  | some h =>
      match s.counters[h]? with
      | some rc =>
          let p := rc.object.update { contents := some c }
          (.ok (), { s with counters := modifyAt s.counters h (fun rc' => { rc' with object := p.1 }) }, p.2)
      | none => (.ok (), s, [])
  | none => (.error (.unknownIdentifier uri), s, [])

/-- `UpdatableReferenceResource.dispose` → `DisposableRefCounter.dispose`:
`this.refs--; if (this.refs === 0) this.onDispose()` where the closure is
`underlyingResource.dispose(); this.cache.delete(key)`. -/
def disposeH (s : Resolver) (h : Nat) : Resolver :=
  match s.counters[h]? with
  | none => s
  | some rc =>
      if rc.refs - 1 = 0 then
        { counters :=
            modifyAt s.counters h (fun rc' =>
              { rc' with
                refs := rc'.refs - 1
                object := rc'.object.dispose
                firedCount := rc'.firedCount + 1 })
          cache := delKey s.cache rc.key }
      else
        { s with
          counters := modifyAt s.counters h (fun rc' => { rc' with refs := rc'.refs - 1 }) }

/-- `UpdatableReferenceResource.update(options)` on a handle:
`this.reference.object.update(options)`. -/
def updateHOp (s : Resolver) (h : Nat) (o : UpdateOptions) : Resolver × List Event :=
  match s.counters[h]? with
  | some rc =>
      let p := rc.object.update o
      ({ s with counters := modifyAt s.counters h (fun rc' => { rc' with object := p.1 }) }, p.2)
  | none => (s, [])

/-- `UpdatableReferenceResource.saveContents(contents)` on a handle:
`this.reference.object.saveContents(contents)`. -/
def saveHOp (s : Resolver) (h : Nat) (c : String) : Resolver × List Event :=
  match s.counters[h]? with
  | some rc =>
      let p := rc.object.saveContents c
      ({ s with counters := modifyAt s.counters h (fun rc' => { rc' with object := p.1 }) }, p.2)
  | none => (s, [])

/-- The registry's API as a transition alphabet. -/
inductive Op where
  | add (uri : String) (opts : InitOptions)
  | resolve (uri : String)
  | tryGet (uri : String)
  | updateKey (uri : String) (contents : String)
  | disposeH (h : Nat)
  | updateH (h : Nat) (o : UpdateOptions)
  | saveH (h : Nat) (contents : String)
deriving DecidableEq, Repr

/-- One API call: the next state and the events it emits. -/
def step (s : Resolver) : Op → Resolver × List Event
  | .add uri opts => ((addOp s uri opts).2, [])
  | .resolve uri => ((resolveOp s uri).2, [])
  | .tryGet uri => ((tryGetOp s uri).2, [])
  | .updateKey uri c => ((updateKeyOp s uri c).2.1, (updateKeyOp s uri c).2.2)
  | .disposeH h => (disposeH s h, [])
  | .updateH h o => updateHOp s h o
  | .saveH h c => saveHOp s h c

/-- Run a sequence of API calls from a state. -/
def runOps (s : Resolver) (ops : List Op) : Resolver :=
  List.foldl (fun t op => (step t op).1) s ops

/-- Reference count of the counter behind handle `h`. -/
def refsAt (s : Resolver) (h : Nat) : Option Int :=
  (s.counters[h]?).map (·.refs)

/-- How many times handle `h`'s teardown (`onDispose`) has run. -/
def firedAt (s : Resolver) (h : Nat) : Option Nat :=
  (s.counters[h]?).map (·.firedCount)

/-- Whether handle `h`'s change emitter has been disposed. -/
def emitterAt (s : Resolver) (h : Nat) : Option Bool :=
  (s.counters[h]?).map (·.object.emitterDisposed)

/-- The current `onSave` field of handle `h`'s holder. -/
def onSaveAt (s : Resolver) (h : Nat) : Option (Option CbId) :=
  (s.counters[h]?).map (·.object.onSave)

/-- The payload of handle `h`'s holder. -/
def contentsAt (s : Resolver) (h : Nat) : Option ContentsVal :=
  (s.counters[h]?).map (·.object.contents)

/-- `readContents()` through handle `h`. -/
def readAt (s : Resolver) (h : Nat) : Option String :=
  (s.counters[h]?).map (·.object.readContents)

/-- `readContents()` through the cache entry of `uri`. -/
def readAtKey (s : Resolver) (uri : String) : Option String :=
  match lookupKey s.cache uri with
  | some h => readAt s h
  | none => none

/-! ### Basic lemmas about the association list and the counter store -/

theorem lookupKey_setKey_self (m : List (String × Nat)) (k : String) (v : Nat) :
    lookupKey (setKey m k v) k = some v := by
  induction m with
  | nil => simp [setKey, lookupKey]
  | cons p rest ih =>
      obtain ⟨k', v'⟩ := p
      by_cases hk : k' = k
      · simp [setKey, lookupKey, hk]
      · simp [setKey, lookupKey, hk, ih]

theorem lookupKey_setKey_ne (m : List (String × Nat)) (k k' : String) (v : Nat)
    (h : k' ≠ k) : lookupKey (setKey m k v) k' = lookupKey m k' := by
  induction m with
  | nil => simp [setKey, lookupKey, Ne.symm h]
  | cons p rest ih =>
      obtain ⟨k₀, v₀⟩ := p
      by_cases hk : k₀ = k
      · subst hk
        simp [setKey, lookupKey, Ne.symm h]
      · by_cases hk' : k₀ = k'
        · simp [setKey, lookupKey, hk, hk', h]
        · simp [setKey, lookupKey, hk, hk', ih]

theorem lookupKey_delKey_self (m : List (String × Nat)) (k : String) :
    lookupKey (delKey m k) k = none := by
  induction m with
  | nil => simp [delKey, lookupKey]
  | cons p rest ih =>
      obtain ⟨k₀, v₀⟩ := p
      by_cases hk : k₀ = k
      · simpa [delKey, List.filter_cons, hk] using ih
      · simpa [delKey, List.filter_cons, hk, lookupKey] using ih

theorem lookupKey_delKey_ne (m : List (String × Nat)) (k k' : String) (h : k' ≠ k) :
    lookupKey (delKey m k) k' = lookupKey m k' := by
  induction m with
  | nil => simp [delKey, lookupKey]
  | cons p rest ih =>
      obtain ⟨k₀, v₀⟩ := p
      by_cases hk : k₀ = k
      · subst hk
        simpa [delKey, List.filter_cons, lookupKey, Ne.symm h] using ih
      · by_cases hk' : k₀ = k'
        · simp [delKey, List.filter_cons, hk, hk', lookupKey, h]
        · simpa [delKey, List.filter_cons, hk, hk', lookupKey] using ih

theorem lookupKey_append_fresh (m : List (String × Nat)) (k : String) (v : Nat)
    (h : lookupKey m k = none) : setKey m k v = m ++ [(k, v)] := by
  induction m with
  | nil => simp [setKey]
  | cons p rest ih =>
      obtain ⟨k₀, v₀⟩ := p
      by_cases hk : k₀ = k
      · simp [lookupKey, hk] at h
      · simp [lookupKey, hk] at h
        simp [setKey, hk, ih h]

theorem length_modifyAt (l : List DisposableRefCounter) (n : Nat)
    (f : DisposableRefCounter → DisposableRefCounter) :
    (modifyAt l n f).length = l.length := by
  induction l generalizing n with
  | nil => simp [modifyAt]
  | cons a l ih =>
      cases n with
      | zero => simp [modifyAt]
      | succ n => simp [modifyAt, ih]

theorem getElem?_modifyAt_self (l : List DisposableRefCounter) (n : Nat)
    (f : DisposableRefCounter → DisposableRefCounter) (rc : DisposableRefCounter)
    (h : l[n]? = some rc) : (modifyAt l n f)[n]? = some (f rc) := by
  induction l generalizing n with
  | nil => simp at h
  | cons a l ih =>
      cases n with
      | zero =>
          simp at h
          simp [modifyAt, h]
      | succ n =>
          simp at h
          simpa [modifyAt] using ih n h

theorem getElem?_modifyAt_ne (l : List DisposableRefCounter) (n m : Nat)
    (f : DisposableRefCounter → DisposableRefCounter) (h : m ≠ n) :
    (modifyAt l n f)[m]? = l[m]? := by
  induction l generalizing n m with
  | nil => simp [modifyAt]
  | cons a l ih =>
      cases n with
      | zero =>
          cases m with
          | zero => exact absurd rfl h
          | succ m => simp [modifyAt]
      | succ n =>
          cases m with
          | zero => simp [modifyAt]
          | succ m =>
              have : m ≠ n := fun hh => h (by simp [hh])
              simpa [modifyAt] using ih n m this

theorem getElem?_append_new (l : List DisposableRefCounter) (rc : DisposableRefCounter) :
    (l ++ [rc])[l.length]? = some rc := by
  simp

theorem getElem?_append_old (l : List DisposableRefCounter) (rc : DisposableRefCounter)
    (n : Nat) (h : n < l.length) : (l ++ [rc])[n]? = l[n]? := by
  simp [List.getElem?_append, h]

/-- `k` successive `dispose` calls on the same handle. -/
def disposeIter (h : Nat) : Nat → Resolver → Resolver
  | 0, s => s
  | k + 1, s => disposeIter h k (disposeH s h)

/-- Well-formedness of a registry state: every cached key points to a counter
created under that key, with a positive count and a live emitter; every
counter is either cached under its own key or fully released
(count ≤ 0). -/
structure WF (s : Resolver) : Prop where
  cached_live : ∀ k h, lookupKey s.cache k = some h →
    ∃ rc, s.counters[h]? = some rc ∧ rc.key = k ∧ 1 ≤ rc.refs ∧
      rc.object.emitterDisposed = false
  stale_nonpos : ∀ h rc, s.counters[h]? = some rc →
    lookupKey s.cache rc.key = some h ∨ rc.refs ≤ 0
  rid_eq : ∀ (h : Nat) (rc : DisposableRefCounter), s.counters[h]? = some rc →
    rc.object.rid = h

/-! ### Resource-level lemmas -/

theorem update_contentsOnly (r : DisposableMutableResource) (c : String) :
    r.update { contents := some c } =
      if jsDiffers c r.contents then ({ r with contents := .str c }, r.fireEvents)
      else (r, []) := by
  unfold DisposableMutableResource.update
  by_cases hd : jsDiffers c r.contents <;> simp [hd]

theorem contents_update (r : DisposableMutableResource) (c : String) :
    (r.update { contents := some c }).1.contents = .str c := by
  rw [update_contentsOnly]
  by_cases hd : jsDiffers c r.contents
  · simp [hd]
  · cases hc : r.contents with
    | str s =>
        rw [hc] at hd
        simp [jsDiffers] at hd
        simp [hd, hc, jsDiffers]
    | pending s =>
        rw [hc] at hd
        simp [jsDiffers] at hd

theorem readContents_update (r : DisposableMutableResource) (c : String) :
    (r.update { contents := some c }).1.readContents = c := by
  unfold DisposableMutableResource.readContents
  rw [contents_update]
  rfl

theorem events_update (r : DisposableMutableResource) (c : String) :
    (r.update { contents := some c }).2 =
      if jsDiffers c r.contents then r.fireEvents else [] := by
  rw [update_contentsOnly]
  by_cases hd : jsDiffers c r.contents <;> simp [hd]

theorem update_fst_emitterDisposed (r : DisposableMutableResource) (o : UpdateOptions) :
    (r.update o).1.emitterDisposed = r.emitterDisposed := by
  unfold DisposableMutableResource.update
  cases o.contents with
  | none => dsimp; split <;> rfl
  | some c => dsimp; split <;> (dsimp; split <;> rfl)

theorem update_fst_options (r : DisposableMutableResource) (o : UpdateOptions) :
    (r.update o).1.options = r.options := by
  unfold DisposableMutableResource.update
  cases o.contents with
  | none => dsimp; split <;> rfl
  | some c => dsimp; split <;> (dsimp; split <;> rfl)

theorem update_fst_rid (r : DisposableMutableResource) (o : UpdateOptions) :
    (r.update o).1.rid = r.rid := by
  unfold DisposableMutableResource.update
  cases o.contents with
  | none => dsimp; split <;> rfl
  | some c => dsimp; split <;> (dsimp; split <;> rfl)

theorem update_fst_onSave (r : DisposableMutableResource) (o : UpdateOptions) :
    (r.update o).1.onSave = if o.onSaveProvided then o.onSave else r.onSave := by
  unfold DisposableMutableResource.update
  have honp : ∀ p : DisposableMutableResource × List Event, p.1.onSave = r.onSave →
      ((if o.onSaveProvided && (o.onSave != p.1.onSave) then
          ({ p.1 with onSave := o.onSave }, p.2) else (p.1, p.2)).1.onSave
        = if o.onSaveProvided then o.onSave else r.onSave) := by
    intro p hp
    by_cases hpr : o.onSaveProvided
    · by_cases hne : o.onSave = r.onSave
      · simp [hpr, hp, hne]
      · simp [hpr, hp, hne]
    · simp [hpr, hp]
  cases o.contents with
  | none => exact honp (r, []) rfl
  | some c =>
      dsimp
      by_cases hd : jsDiffers c r.contents
      · simpa [hd] using honp ({ r with contents := .str c }, r.fireEvents) rfl
      · simpa [hd] using honp (r, []) rfl

theorem saveContents_fst_emitterDisposed (r : DisposableMutableResource) (c : String) :
    (r.saveContents c).1.emitterDisposed = r.emitterDisposed := by
  unfold DisposableMutableResource.saveContents
  cases r.options.onSave with
  | none => rfl
  | some cb => exact update_fst_emitterDisposed r _

theorem saveContents_fst_rid (r : DisposableMutableResource) (c : String) :
    (r.saveContents c).1.rid = r.rid := by
  unfold DisposableMutableResource.saveContents
  cases r.options.onSave with
  | none => rfl
  | some cb => exact update_fst_rid r _

theorem update_snd (r : DisposableMutableResource) (o : UpdateOptions) :
    (r.update o).2 =
      match o.contents with
      | some c => if jsDiffers c r.contents then r.fireEvents else []
      | none => [] := by
  unfold DisposableMutableResource.update
  cases o.contents with
  | none => dsimp; split <;> rfl
  | some c =>
      dsimp
      by_cases hd : jsDiffers c r.contents
      · simp only [hd, if_true]
        split <;> rfl
      · simp only [hd, Bool.false_eq_true, if_false]
        split <;> rfl

theorem notify_mem_update (r : DisposableMutableResource) (o : UpdateOptions)
    (n : Nat) (hmem : Event.notify n ∈ (r.update o).2) :
    r.emitterDisposed = false ∧ n = r.rid := by
  rw [update_snd] at hmem
  cases hoc : o.contents with
  | none => rw [hoc] at hmem; simp at hmem
  | some c =>
      rw [hoc] at hmem
      dsimp at hmem
      by_cases hd : jsDiffers c r.contents
      · simp only [hd, if_true] at hmem
        unfold DisposableMutableResource.fireEvents at hmem
        by_cases he : r.emitterDisposed
        · simp [he] at hmem
        · simp [he] at hmem
          exact ⟨by simpa using he, hmem⟩
      · simp [hd] at hmem

theorem notify_mem_saveContents (r : DisposableMutableResource) (c : String)
    (n : Nat) (hmem : Event.notify n ∈ (r.saveContents c).2) :
    r.emitterDisposed = false ∧ n = r.rid := by
  unfold DisposableMutableResource.saveContents at hmem
  cases ho : r.options.onSave with
  | none => rw [ho] at hmem; simp at hmem
  | some cb =>
      rw [ho] at hmem
      dsimp at hmem
      rcases List.mem_cons.mp hmem with hmem | hmem
      · simp at hmem
      · exact notify_mem_update r _ n hmem

theorem modifyAt_eq_self (l : List DisposableRefCounter) (n : Nat)
    (f : DisposableRefCounter → DisposableRefCounter) (rc : DisposableRefCounter)
    (hg : l[n]? = some rc) (hf : f rc = rc) : modifyAt l n f = l := by
  induction l generalizing n with
  | nil => simp [modifyAt]
  | cons a l ih =>
      cases n with
      | zero =>
          simp at hg
          subst hg
          simp [modifyAt, hf]
      | succ n =>
          simp at hg
          simp [modifyAt, ih n hg]

/-! ### Well-formedness preservation -/

theorem wf_resolver0 : WF resolver0 := by
  constructor
  · intro k h hl
    simp [resolver0, lookupKey] at hl
  · intro h rc hg
    simp [resolver0] at hg
  · intro h rc hg
    simp [resolver0] at hg

theorem wf_setObj (s : Resolver) (h : Nat) (rc : DisposableRefCounter)
    (r' : DisposableMutableResource) (hrc : s.counters[h]? = some rc)
    (hemit : r'.emitterDisposed = rc.object.emitterDisposed)
    (hrid : r'.rid = rc.object.rid) (wf : WF s) :
    WF { s with counters := modifyAt s.counters h (fun rc' => { rc' with object := r' }) } := by
  constructor
  · intro k h' hl
    obtain ⟨rc', hg, hkey, hrefs, hem⟩ := wf.cached_live k h' hl
    by_cases hh : h' = h
    · subst hh
      rw [hrc] at hg
      obtain rfl : rc = rc' := Option.some.inj hg
      refine ⟨{ rc with object := r' }, getElem?_modifyAt_self _ _ _ _ hrc, hkey, hrefs, ?_⟩
      simpa [hemit] using hem
    · exact ⟨rc', by rw [getElem?_modifyAt_ne _ _ _ _ hh]; exact hg, hkey, hrefs, hem⟩
  · intro h' rc' hg
    by_cases hh : h' = h
    · subst hh
      rw [getElem?_modifyAt_self _ _ _ rc hrc] at hg
      obtain rfl : { rc with object := r' } = rc' := Option.some.inj hg
      rcases wf.stale_nonpos _ rc hrc with hca | hst
      · left; exact hca
      · right; exact hst
    · rw [getElem?_modifyAt_ne _ _ _ _ hh] at hg
      exact wf.stale_nonpos h' rc' hg
  · intro h' rc' hg
    by_cases hh : h' = h
    · subst hh
      rw [getElem?_modifyAt_self _ _ _ rc hrc] at hg
      obtain rfl : { rc with object := r' } = rc' := Option.some.inj hg
      dsimp
      rw [hrid]
      exact wf.rid_eq _ rc hrc
    · rw [getElem?_modifyAt_ne _ _ _ _ hh] at hg
      exact wf.rid_eq h' rc' hg

theorem wf_addOp (s : Resolver) (uri : String) (opts : InitOptions) (wf : WF s) :
    WF (addOp s uri opts).2 := by
  unfold addOp
  by_cases hdup : (lookupKey s.cache uri).isSome
  · simpa [hdup] using wf
  · have hfresh : lookupKey s.cache uri = none := Option.not_isSome_iff_eq_none.mp hdup
    simp only [hdup, Bool.false_eq_true, if_false]
    constructor
    · intro k h' hl
      dsimp at hl ⊢
      by_cases hk : k = uri
      · subst hk
        rw [lookupKey_setKey_self] at hl
        obtain rfl : s.counters.length = h' := Option.some.inj hl
        exact ⟨_, getElem?_append_new _ _, rfl, by norm_num, rfl⟩
      · rw [lookupKey_setKey_ne _ _ _ _ hk] at hl
        obtain ⟨rc', hg, hkey, hrefs, hem⟩ := wf.cached_live k h' hl
        have hlt : h' < s.counters.length := by
          rcases List.getElem?_eq_some.mp hg with ⟨hlt, _⟩
          exact hlt
        exact ⟨rc', by rw [getElem?_append_old _ _ _ hlt]; exact hg, hkey, hrefs, hem⟩
    · intro h' rc' hg
      dsimp at hg ⊢
      by_cases hh : h' = s.counters.length
      · subst hh
        rw [getElem?_append_new] at hg
        obtain rfl := Option.some.inj hg
        left
        rw [lookupKey_setKey_self]
      · have hlt : h' < s.counters.length := by
          rcases List.getElem?_eq_some.mp hg with ⟨hlt, _⟩
          simp at hlt
          omega
        rw [getElem?_append_old _ _ _ hlt] at hg
        rcases wf.stale_nonpos h' rc' hg with hca | hst
        · left
          by_cases hke : rc'.key = uri
          · rw [hke, hfresh] at hca
            cases hca
          · rw [lookupKey_setKey_ne _ _ _ _ hke]
            exact hca
        · right; exact hst
    · intro h' rc' hg
      dsimp at hg ⊢
      by_cases hh : h' = s.counters.length
      · subst hh
        rw [getElem?_append_new] at hg
        obtain rfl := Option.some.inj hg
        rfl
      · have hlt : h' < s.counters.length := by
          rcases List.getElem?_eq_some.mp hg with ⟨hlt2, _⟩
          simp at hlt2
          omega
        rw [getElem?_append_old _ _ _ hlt] at hg
        exact wf.rid_eq h' rc' hg

theorem wf_resolveOp (s : Resolver) (uri : String) (wf : WF s) :
    WF (resolveOp s uri).2 := by
  unfold resolveOp
  cases hl : lookupKey s.cache uri with
  | none => exact wf
  | some h =>
      obtain ⟨rc, hg, hkey, hrefs, hem⟩ := wf.cached_live uri h hl
      constructor
      · intro k h' hl'
        obtain ⟨rc', hg', hkey', hrefs', hem'⟩ := wf.cached_live k h' hl'
        by_cases hh : h' = h
        · subst hh
          rw [hg] at hg'
          obtain rfl : rc = rc' := Option.some.inj hg'
          refine ⟨{ rc with refs := rc.refs + 1 }, getElem?_modifyAt_self _ _ _ _ hg, hkey', ?_, hem'⟩
          dsimp
          omega
        · exact ⟨rc', by rw [getElem?_modifyAt_ne _ _ _ _ hh]; exact hg', hkey', hrefs', hem'⟩
      · intro h' rc' hg'
        by_cases hh : h' = h
        · subst hh
          rw [getElem?_modifyAt_self _ _ _ rc hg] at hg'
          obtain rfl := Option.some.inj hg'
          left
          dsimp
          rw [hkey]
          exact hl
        · rw [getElem?_modifyAt_ne _ _ _ _ hh] at hg'
          exact wf.stale_nonpos h' rc' hg'
      · intro h' rc' hg'
        by_cases hh : h' = h
        · subst hh
          rw [getElem?_modifyAt_self _ _ _ rc hg] at hg'
          obtain rfl := Option.some.inj hg'
          dsimp
          exact wf.rid_eq _ rc hg
        · rw [getElem?_modifyAt_ne _ _ _ _ hh] at hg'
          exact wf.rid_eq h' rc' hg'

theorem tryGetOp_snd (s : Resolver) (uri : String) :
    (tryGetOp s uri).2 = (resolveOp s uri).2 := by
  unfold tryGetOp
  rcases hr : resolveOp s uri with ⟨e, s'⟩
  cases e <;> simp

theorem wf_tryGetOp (s : Resolver) (uri : String) (wf : WF s) :
    WF (tryGetOp s uri).2 := by
  rw [tryGetOp_snd]
  exact wf_resolveOp s uri wf

theorem wf_updateKeyOp (s : Resolver) (uri c : String) (wf : WF s) :
    WF (updateKeyOp s uri c).2.1 := by
  unfold updateKeyOp
  cases hl : lookupKey s.cache uri with
  | none => exact wf
  | some h =>
      dsimp only
      cases hg : s.counters[h]? with
      | none => exact wf
      | some rc =>
          dsimp only
          exact wf_setObj s h rc _ hg (update_fst_emitterDisposed rc.object _)
            (update_fst_rid rc.object _) wf

theorem wf_updateHOp (s : Resolver) (h : Nat) (o : UpdateOptions) (wf : WF s) :
    WF (updateHOp s h o).1 := by
  unfold updateHOp
  cases hg : s.counters[h]? with
  | none => exact wf
  | some rc =>
      dsimp only
      exact wf_setObj s h rc _ hg (update_fst_emitterDisposed rc.object _)
        (update_fst_rid rc.object _) wf

theorem wf_saveHOp (s : Resolver) (h : Nat) (c : String) (wf : WF s) :
    WF (saveHOp s h c).1 := by
  unfold saveHOp
  cases hg : s.counters[h]? with
  | none => exact wf
  | some rc =>
      dsimp only
      exact wf_setObj s h rc _ hg (saveContents_fst_emitterDisposed rc.object _)
        (saveContents_fst_rid rc.object _) wf

theorem wf_disposeH (s : Resolver) (h : Nat) (wf : WF s) : WF (disposeH s h) := by
  unfold disposeH
  cases hrc : s.counters[h]? with
  | none => exact wf
  | some rc =>
      by_cases hz : rc.refs - 1 = 0
      · simp only [hz, if_pos]
        constructor
        · intro k h' hl
          dsimp at hl
          have hkne : k ≠ rc.key := by
            intro he
            subst he
            rw [lookupKey_delKey_self] at hl
            cases hl
          rw [lookupKey_delKey_ne _ _ _ hkne] at hl
          obtain ⟨rc', hg, hkey, hrefs, hem⟩ := wf.cached_live k h' hl
          have hne : h' ≠ h := by
            intro he
            subst he
            rw [hrc] at hg
            obtain rfl : rc = rc' := Option.some.inj hg
            exact hkne hkey.symm
          exact ⟨rc', by rw [getElem?_modifyAt_ne _ _ _ _ hne]; exact hg, hkey, hrefs, hem⟩
        · intro h' rc' hg
          dsimp at hg
          by_cases hh : h' = h
          · subst hh
            rw [getElem?_modifyAt_self _ _ _ rc hrc] at hg
            obtain rfl := Option.some.inj hg
            right
            dsimp
            omega
          · rw [getElem?_modifyAt_ne _ _ _ _ hh] at hg
            rcases wf.stale_nonpos h' rc' hg with hca | hst
            · left
              by_cases hke : rc'.key = rc.key
              · exfalso
                have hrefs1 : (1 : Int) ≤ rc.refs := by omega
                have hcl : lookupKey s.cache rc.key = some h := by
                  rcases wf.stale_nonpos h rc hrc with hx | hx
                  · exact hx
                  · omega
                rw [hke] at hca
                rw [hcl] at hca
                exact hh (Option.some.inj hca).symm
              · rw [lookupKey_delKey_ne _ _ _ hke]
                exact hca
            · right; exact hst
        · intro h' rc' hg
          dsimp at hg
          by_cases hh : h' = h
          · subst hh
            rw [getElem?_modifyAt_self _ _ _ rc hrc] at hg
            obtain rfl := Option.some.inj hg
            dsimp [DisposableMutableResource.dispose]
            exact wf.rid_eq _ rc hrc
          · rw [getElem?_modifyAt_ne _ _ _ _ hh] at hg
            exact wf.rid_eq h' rc' hg
      · simp only [hz, if_neg, if_false]
        constructor
        · intro k h' hl
          dsimp at hl
          obtain ⟨rc', hg, hkey, hrefs, hem⟩ := wf.cached_live k h' hl
          by_cases hh : h' = h
          · subst hh
            rw [hrc] at hg
            obtain rfl : rc = rc' := Option.some.inj hg
            refine ⟨{ rc with refs := rc.refs - 1 }, getElem?_modifyAt_self _ _ _ _ hrc, hkey, ?_, hem⟩
            dsimp
            omega
          · exact ⟨rc', by rw [getElem?_modifyAt_ne _ _ _ _ hh]; exact hg, hkey, hrefs, hem⟩
        · intro h' rc' hg
          dsimp at hg
          by_cases hh : h' = h
          · subst hh
            rw [getElem?_modifyAt_self _ _ _ rc hrc] at hg
            obtain rfl := Option.some.inj hg
            rcases wf.stale_nonpos _ rc hrc with hca | hst
            · left; exact hca
            · right; dsimp; omega
          · rw [getElem?_modifyAt_ne _ _ _ _ hh] at hg
            exact wf.stale_nonpos h' rc' hg
        · intro h' rc' hg
          dsimp at hg
          by_cases hh : h' = h
          · subst hh
            rw [getElem?_modifyAt_self _ _ _ rc hrc] at hg
            obtain rfl := Option.some.inj hg
            dsimp
            exact wf.rid_eq _ rc hrc
          · rw [getElem?_modifyAt_ne _ _ _ _ hh] at hg
            exact wf.rid_eq h' rc' hg

theorem wf_step (s : Resolver) (op : Op) (wf : WF s) : WF (step s op).1 := by
  cases op with
  | add uri opts => exact wf_addOp s uri opts wf
  | resolve uri => exact wf_resolveOp s uri wf
  | tryGet uri => exact wf_tryGetOp s uri wf
  | updateKey uri c => exact wf_updateKeyOp s uri c wf
  | disposeH h => exact wf_disposeH s h wf
  | updateH h o => exact wf_updateHOp s h o wf
  | saveH h c => exact wf_saveHOp s h c wf

theorem wf_runOps (ops : List Op) (s : Resolver) (wf : WF s) : WF (runOps s ops) := by
  induction ops generalizing s with
  | nil => exact wf
  | cons op ops ih => exact ih (step s op).1 (wf_step s op wf)

/-! ### Characterizations of the registry operations -/

theorem addOp_fresh (s : Resolver) (uri : String) (opts : InitOptions)
    (hl : lookupKey s.cache uri = none) :
    addOp s uri opts = (.ok s.counters.length,
      { counters :=
          s.counters ++
            [{ refs := 0 + 1, key := uri,
               object := DisposableMutableResource.mk0 s.counters.length uri opts,
               firedCount := 0 }],
        cache := setKey s.cache uri s.counters.length }) := by
  unfold addOp
  simp [hl]

theorem resolveOp_live (s : Resolver) (uri : String) (h : Nat)
    (hl : lookupKey s.cache uri = some h) :
    resolveOp s uri = (.ok h,
      { s with
          counters :=
            modifyAt s.counters h (fun rc => { rc with refs := rc.refs + 1 }) }) := by
  unfold resolveOp
  rw [hl]

theorem updateKeyOp_live (s : Resolver) (uri : String) (h : Nat)
    (rc : DisposableRefCounter) (c : String)
    (hl : lookupKey s.cache uri = some h) (hg : s.counters[h]? = some rc) :
    updateKeyOp s uri c =
      (.ok (),
        { s with
            counters :=
              modifyAt s.counters h
                (fun rc' =>
                  { rc' with object := (rc.object.update { contents := some c }).1 }) },
        (rc.object.update { contents := some c }).2) := by
  unfold updateKeyOp
  rw [hl]
  dsimp only
  rw [hg]

theorem disposeH_eq (s : Resolver) (h : Nat) (rc : DisposableRefCounter)
    (hg : s.counters[h]? = some rc) :
    disposeH s h =
      if rc.refs - 1 = 0 then
        { counters :=
            modifyAt s.counters h
              (fun rc' =>
                { rc' with
                    refs := rc'.refs - 1, object := rc'.object.dispose,
                    firedCount := rc'.firedCount + 1 }),
          cache := delKey s.cache rc.key }
      else
        { s with
            counters :=
              modifyAt s.counters h (fun rc' => { rc' with refs := rc'.refs - 1 }) } := by
  unfold disposeH
  rw [hg]

theorem readAtKey_of (s : Resolver) (uri : String) (h : Nat)
    (rc : DisposableRefCounter) (hl : lookupKey s.cache uri = some h)
    (hg : s.counters[h]? = some rc) :
    readAtKey s uri = some rc.object.readContents := by
  unfold readAtKey readAt
  rw [hl]
  dsimp only
  rw [hg]
  rfl

theorem resolveOp_cache (s : Resolver) (uri : String) :
    (resolveOp s uri).2.cache = s.cache := by
  unfold resolveOp
  cases hl : lookupKey s.cache uri <;> rfl

theorem updateKeyOp_cache (s : Resolver) (uri c : String) :
    (updateKeyOp s uri c).2.1.cache = s.cache := by
  unfold updateKeyOp
  cases hl : lookupKey s.cache uri with
  | none => rfl
  | some h =>
      dsimp only
      cases hg : s.counters[h]? <;> rfl

theorem updateHOp_cache (s : Resolver) (h : Nat) (o : UpdateOptions) :
    (updateHOp s h o).1.cache = s.cache := by
  unfold updateHOp
  cases hg : s.counters[h]? <;> rfl

theorem saveHOp_cache (s : Resolver) (h : Nat) (c : String) :
    (saveHOp s h c).1.cache = s.cache := by
  unfold saveHOp
  cases hg : s.counters[h]? <;> rfl

theorem disposeH_counter (s : Resolver) (h : Nat) (rc : DisposableRefCounter)
    (hg : s.counters[h]? = some rc) :
    (disposeH s h).counters[h]? = some
      (if rc.refs - 1 = 0 then
        { rc with
            refs := rc.refs - 1, object := rc.object.dispose,
            firedCount := rc.firedCount + 1 }
      else { rc with refs := rc.refs - 1 }) := by
  rw [disposeH_eq s h rc hg]
  by_cases hz : rc.refs - 1 = 0
  · simp only [if_pos hz]
    exact getElem?_modifyAt_self _ _ _ _ hg
  · simp only [if_neg hz]
    exact getElem?_modifyAt_self _ _ _ _ hg

theorem disposeIter_fired (s : Resolver) (h : Nat) (rc : DisposableRefCounter)
    (k : Nat) (hg : s.counters[h]? = some rc) :
    firedAt (disposeIter h k s) h =
      some (rc.firedCount + if 1 ≤ rc.refs ∧ rc.refs ≤ (k : Int) then 1 else 0) := by
  induction k generalizing s rc with
  | zero =>
      unfold disposeIter firedAt
      rw [hg]
      have hno : ¬(1 ≤ rc.refs ∧ rc.refs ≤ ((0 : Nat) : Int)) := by omega
      rw [if_neg hno]
      simp
  | succ k ih =>
      unfold disposeIter
      have hg1 := disposeH_counter s h rc hg
      by_cases hz : rc.refs - 1 = 0
      · rw [if_pos hz] at hg1
        rw [ih (disposeH s h) _ hg1]
        dsimp only
        have hc1 : ¬(1 ≤ rc.refs - 1 ∧ rc.refs - 1 ≤ (k : Int)) := by omega
        have hc2 : 1 ≤ rc.refs ∧ rc.refs ≤ ((k + 1 : Nat) : Int) := by
          constructor <;> omega
        rw [if_neg hc1, if_pos hc2]
      · rw [if_neg hz] at hg1
        rw [ih (disposeH s h) _ hg1]
        dsimp only
        by_cases hc : 1 ≤ rc.refs - 1 ∧ rc.refs - 1 ≤ (k : Int)
        · have hc2 : 1 ≤ rc.refs ∧ rc.refs ≤ ((k + 1 : Nat) : Int) := by
            constructor <;> omega
          rw [if_pos hc, if_pos hc2]
        · have hc2 : ¬(1 ≤ rc.refs ∧ rc.refs ≤ ((k + 1 : Nat) : Int)) := by omega
          rw [if_neg hc, if_neg hc2]

theorem cache_presence_step (s : Resolver) (op : Op) (k : String) (h : Nat)
    (rc : DisposableRefCounter) (wf : WF s) (hl : lookupKey s.cache k = some h)
    (hg : s.counters[h]? = some rc)
    (hguard : op = Op.disposeH h → 2 ≤ rc.refs) :
    lookupKey (step s op).1.cache k = some h := by
  cases op with
  | add uri opts =>
      dsimp only [step]
      unfold addOp
      by_cases hdup : (lookupKey s.cache uri).isSome
      · simp only [hdup, if_pos]
        exact hl
      · have hfresh : lookupKey s.cache uri = none := Option.not_isSome_iff_eq_none.mp hdup
        simp only [hdup, Bool.false_eq_true, if_false]
        have hkne : k ≠ uri := by
          intro he
          rw [he, hfresh] at hl
          cases hl
        rw [lookupKey_setKey_ne _ _ _ _ hkne]
        exact hl
  | resolve uri =>
      dsimp only [step]
      rw [resolveOp_cache]
      exact hl
  | tryGet uri =>
      dsimp only [step]
      rw [tryGetOp_snd, resolveOp_cache]
      exact hl
  | updateKey uri c =>
      dsimp only [step]
      rw [updateKeyOp_cache]
      exact hl
  | updateH h' o =>
      dsimp only [step]
      rw [updateHOp_cache]
      exact hl
  | saveH h' c =>
      dsimp only [step]
      rw [saveHOp_cache]
      exact hl
  | disposeH h' =>
      dsimp only [step]
      cases hgc : s.counters[h']? with
      | none =>
          unfold disposeH
          rw [hgc]
          exact hl
      | some rc' =>
          rw [disposeH_eq s h' rc' hgc]
          by_cases hz : rc'.refs - 1 = 0
          · rw [if_pos hz]
            dsimp only
            have hkne : k ≠ rc'.key := by
              intro he
              subst he
              rcases wf.stale_nonpos h' rc' hgc with hca | hst
              · rw [hl] at hca
                obtain rfl : h = h' := Option.some.inj hca
                rw [hg] at hgc
                obtain rfl : rc = rc' := Option.some.inj hgc
                have := hguard rfl
                omega
              · omega
            rw [lookupKey_delKey_ne _ _ _ hkne]
            exact hl
          · rw [if_neg hz]
            exact hl

theorem no_notify_after_dispose (s : Resolver) (op : Op) (h : Nat)
    (wf : WF s) (hem : emitterAt s h = some true) :
    Event.notify h ∉ (step s op).2 := by
  intro hmem
  cases op with
  | add uri opts => simp [step] at hmem
  | resolve uri => simp [step] at hmem
  | tryGet uri => simp [step] at hmem
  | disposeH h' => simp [step] at hmem
  | updateKey uri c =>
      dsimp only [step] at hmem
      unfold updateKeyOp at hmem
      cases hl : lookupKey s.cache uri with
      | none =>
          rw [hl] at hmem
          simp at hmem
      | some h' =>
          rw [hl] at hmem
          dsimp only at hmem
          cases hg : s.counters[h']? with
          | none =>
              rw [hg] at hmem
              simp at hmem
          | some rc' =>
              rw [hg] at hmem
              dsimp only at hmem
              obtain ⟨hemf, hn⟩ := notify_mem_update rc'.object _ h hmem
              rw [wf.rid_eq h' rc' hg] at hn
              subst hn
              unfold emitterAt at hem
              rw [hg] at hem
              simp only [Option.map] at hem
              rw [hemf] at hem
              simp at hem
  | updateH h' o =>
      dsimp only [step] at hmem
      unfold updateHOp at hmem
      cases hg : s.counters[h']? with
      | none =>
          rw [hg] at hmem
          simp at hmem
      | some rc' =>
          rw [hg] at hmem
          dsimp only at hmem
          obtain ⟨hemf, hn⟩ := notify_mem_update rc'.object _ h hmem
          rw [wf.rid_eq h' rc' hg] at hn
          subst hn
          unfold emitterAt at hem
          rw [hg] at hem
          simp only [Option.map] at hem
          rw [hemf] at hem
          simp at hem
  | saveH h' c =>
      dsimp only [step] at hmem
      unfold saveHOp at hmem
      cases hg : s.counters[h']? with
      | none =>
          rw [hg] at hmem
          simp at hmem
      | some rc' =>
          rw [hg] at hmem
          dsimp only at hmem
          obtain ⟨hemf, hn⟩ := notify_mem_saveContents rc'.object _ h hmem
          rw [wf.rid_eq h' rc' hg] at hn
          subst hn
          unfold emitterAt at hem
          rw [hg] at hem
          simp only [Option.map] at hem
          rw [hemf] at hem
          simp at hem

/-! ### Claim theorems -/

/-- Claim C2: after a successful `register(id, …)`, a second `register(id, …)`
on the still-live entry fails with `DuplicateRegistration` and leaves the
whole registry state — and hence the first handle's count, payload and cache
entry — unchanged, so at most one live entry per identifier exists. -/
theorem C2_duplicate_registration (s : Resolver) (uri : String) (h : Nat)
    (opts : InitOptions) (hl : lookupKey s.cache uri = some h) :
    (addOp s uri opts).1 = .error (.duplicateRegistration uri) ∧
    (addOp s uri opts).2 = s := by
  unfold addOp
  simp [hl]

/-- Witness for C2 at the concrete state obtained by registering `"a"`. -/
theorem C2_duplicate_registration_witness :
    (addOp (addOp resolver0 "a" {}).2 "a" {}).1
      = .error (.duplicateRegistration "a") ∧
    (addOp (addOp resolver0 "a" {}).2 "a" {}).2 = (addOp resolver0 "a" {}).2 :=
  C2_duplicate_registration (addOp resolver0 "a" {}).2 "a" 0 {} rfl

/-- Claim C3: on an identifier with no live entry, `resolve` (acquire) and
`update` fail synchronously with `UnknownIdentifier` and leave the registry
unchanged, while `tryGet` (tryAcquire) returns an empty result without
failing; on a live entry `tryGet` returns exactly the handle and the state
that `resolve` yields. -/
theorem C3_unknown_identifier :
    (∀ s uri, lookupKey s.cache uri = none →
      resolveOp s uri = (.error (.unknownIdentifier uri), s) ∧
      (∀ c, updateKeyOp s uri c = (.error (.unknownIdentifier uri), s, [])) ∧
      tryGetOp s uri = (none, s)) ∧
    (∀ s uri h, lookupKey s.cache uri = some h →
      (resolveOp s uri).1 = .ok h ∧
      tryGetOp s uri = (some h, (resolveOp s uri).2)) := by
  constructor
  · intro s uri hl
    refine ⟨?_, ?_, ?_⟩
    · unfold resolveOp
      rw [hl]
    · intro c
      unfold updateKeyOp
      rw [hl]
    · unfold tryGetOp resolveOp
      rw [hl]
  · intro s uri h hl
    constructor
    · unfold resolveOp
      rw [hl]
    · unfold tryGetOp resolveOp
      rw [hl]

/-- Witness for C3: a missing identifier on the empty registry, and the
live entry `"a"` after one registration. -/
theorem C3_unknown_identifier_witness :
    resolveOp resolver0 "missing" = (.error (.unknownIdentifier "missing"), resolver0) ∧
    tryGetOp (addOp resolver0 "a" {}).2 "a"
      = (some 0, (resolveOp (addOp resolver0 "a" {}).2 "a").2) :=
  ⟨(C3_unknown_identifier.1 resolver0 "missing" rfl).1,
   (C3_unknown_identifier.2 (addOp resolver0 "a" {}).2 "a" 0 rfl).2⟩

/-- Claim C9: whenever a holder's current save callback is absent, the
`readOnly` getter reports true — in particular at registration with an
explicit `readOnly: false` and no callback, and after an update whose
`onSave` key clears the callback; the first part quantifies over every
holder state, hence over any sequence of register and update operations. -/
theorem C9_readonly_invariant :
    (∀ r : DisposableMutableResource, r.onSave = none → r.readOnly = true) ∧
    (∀ (rid : Nat) (uri : String) (opts : InitOptions), opts.onSave = none →
      (DisposableMutableResource.mk0 rid uri opts).readOnly = true) ∧
    (∀ (r : DisposableMutableResource) (o : UpdateOptions),
      o.onSaveProvided = true → o.onSave = none → (r.update o).1.readOnly = true) := by
  refine ⟨?_, ?_, ?_⟩
  · intro r hr
    simp [DisposableMutableResource.readOnly, hr]
  · intro rid uri opts ho
    simp [DisposableMutableResource.mk0, DisposableMutableResource.readOnly, ho]
  · intro r o hp ho
    simp [DisposableMutableResource.readOnly, update_fst_onSave, hp, ho]

/-- Witness for C9: `readOnly: false` without a callback at registration,
and clearing a registered callback through `update`. -/
theorem C9_readonly_invariant_witness :
    (DisposableMutableResource.mk0 0 "a" { readOnly := some false }).readOnly = true ∧
    ((DisposableMutableResource.mk0 0 "a" { onSave := some 7 }).update
        { onSaveProvided := true }).1.readOnly = true :=
  ⟨C9_readonly_invariant.2.1 0 "a" { readOnly := some false } rfl,
   C9_readonly_invariant.2.2 (DisposableMutableResource.mk0 0 "a" { onSave := some 7 })
     { onSaveProvided := true } rfl rfl⟩

/-- Claim C10: registering an identifier whose initialization options carry
no contents seeds the payload with the empty string: the registration
succeeds, the stored payload is `""`, an immediate `readContents` resolves to
`""`, and the registration step emits no change notification. -/
theorem C10_empty_seed (s : Resolver) (uri : String) (opts : InitOptions)
    (hl : lookupKey s.cache uri = none) (hc : opts.contents = none) :
    (addOp s uri opts).1 = .ok s.counters.length ∧
    contentsAt (addOp s uri opts).2 s.counters.length = some (.str "") ∧
    readAtKey (addOp s uri opts).2 uri = some "" ∧
    (step s (.add uri opts)).2 = [] := by
  have hns : (lookupKey s.cache uri).isSome = false := by
    simp [hl]
  refine ⟨?_, ?_, ?_, rfl⟩
  · unfold addOp
    simp [hns]
  · unfold contentsAt addOp
    simp only [hns, Bool.false_eq_true, if_false]
    rw [getElem?_append_new]
    simp [DisposableMutableResource.mk0, hc]
  · unfold readAtKey readAt addOp
    simp only [hns, Bool.false_eq_true, if_false]
    rw [lookupKey_setKey_self]
    dsimp only
    rw [getElem?_append_new]
    simp [DisposableMutableResource.mk0, DisposableMutableResource.readContents, hc,
      ContentsVal.resolved]

/-- Witness for C10: `register("a", {})` on the empty registry. -/
theorem C10_empty_seed_witness :
    (addOp resolver0 "a" {}).1 = .ok 0 ∧
    contentsAt (addOp resolver0 "a" {}).2 0 = some (.str "") ∧
    readAtKey (addOp resolver0 "a" {}).2 "a" = some "" ∧
    (step resolver0 (.add "a" {})).2 = [] :=
  C10_empty_seed resolver0 "a" {} rfl rfl

/-- Claim C7 (code divergence at the failing input): register `"a"` with no
save callback, then `update` the handle with save callback `7`, then call
`saveContents "x"`.  The holder's current save-callback field is `7`
afterwards — `update` did install it, and the `readOnly` getter consults it —
yet `saveContents` is a complete no-op (no callback invocation, no payload
change, no notification), because the source guards on and invokes the
constructor-time `this.options.onSave` instead of the field that `update`
maintains. -/
theorem C7_saveContents_ignores_updated_callback :
    onSaveAt (updateHOp (addOp resolver0 "a" {}).2 0
        { onSaveProvided := true, onSave := some 7 }).1 0 = some (some 7) ∧
    ((updateHOp (addOp resolver0 "a" {}).2 0
        { onSaveProvided := true, onSave := some 7 }).1.counters[0]?).map
          (fun rc => rc.object.readOnly) = some false ∧
    saveHOp (updateHOp (addOp resolver0 "a" {}).2 0
        { onSaveProvided := true, onSave := some 7 }).1 0 "x"
      = ((updateHOp (addOp resolver0 "a" {}).2 0
          { onSaveProvided := true, onSave := some 7 }).1, []) := by
  refine ⟨rfl, rfl, ?_⟩
  rfl

/-- Claim C5 (counterexample): register `"a"` with payload `"x"`, then call
`update("a", contents "x")` twice in a row.  Both calls fire zero change
notifications, so the pair does not fire "exactly once" as the claim states
for every same-`X` double update. -/
theorem C5_notification_counterexample :
    (updateKeyOp (addOp resolver0 "a" { contents := some (.str "x") }).2 "a" "x").2.2
      = [] ∧
    (updateKeyOp
        (updateKeyOp (addOp resolver0 "a" { contents := some (.str "x") }).2 "a" "x").2.1
        "a" "x").2.2 = [] ∧
    ¬(((updateKeyOp (addOp resolver0 "a" { contents := some (.str "x") }).2 "a" "x").2.2
        ++ (updateKeyOp
            (updateKeyOp (addOp resolver0 "a" { contents := some (.str "x") }).2 "a" "x").2.1
            "a" "x").2.2).count (Event.notify 0) = 1) := by
  refine ⟨rfl, rfl, ?_⟩
  intro hcount
  rw [show (updateKeyOp (addOp resolver0 "a" { contents := some (.str "x") }).2 "a" "x").2.2
      = [] from rfl] at hcount
  rw [show (updateKeyOp
        (updateKeyOp (addOp resolver0 "a" { contents := some (.str "x") }).2 "a" "x").2.1
        "a" "x").2.2 = [] from rfl] at hcount
  simp at hcount

/-- Claim C5 (amended): for a live entry, `update(id, contents X)` fires the
change notification exactly when `X` differs from the current payload (string
inequality; a still-pending payload always counts as different), and the
payload afterwards reads back as `X`; the second of two consecutive updates
with the same `X` fires nothing, so the pair fires at most one notification —
exactly one when `X` differed initially, zero when the payload was already
`X`. -/
theorem C5_update_notification (s : Resolver) (uri : String) (h : Nat)
    (rc : DisposableRefCounter) (X : String) (wf : WF s)
    (hl : lookupKey s.cache uri = some h) (hg : s.counters[h]? = some rc) :
    ((updateKeyOp s uri X).2.2 =
      if jsDiffers X rc.object.contents then [Event.notify rc.object.rid] else []) ∧
    readAtKey (updateKeyOp s uri X).2.1 uri = some X ∧
    (updateKeyOp (updateKeyOp s uri X).2.1 uri X).2.2 = [] := by
  obtain ⟨rc', hg', hkey, hrefs, hem⟩ := wf.cached_live uri h hl
  rw [hg] at hg'
  obtain rfl : rc = rc' := Option.some.inj hg'
  have e1 := updateKeyOp_live s uri h rc X hl hg
  have hg2 : (updateKeyOp s uri X).2.1.counters[h]? =
      some { rc with object := (rc.object.update { contents := some X }).1 } := by
    rw [e1]
    exact getElem?_modifyAt_self _ _ _ _ hg
  have hl2 : lookupKey (updateKeyOp s uri X).2.1.cache uri = some h := by
    rw [e1]
    exact hl
  refine ⟨?_, ?_, ?_⟩
  · rw [e1]
    rw [update_snd]
    dsimp only
    by_cases hd : jsDiffers X rc.object.contents
    · simp [hd, DisposableMutableResource.fireEvents, hem]
    · simp [hd]
  · rw [readAtKey_of _ uri h _ hl2 hg2]
    rw [readContents_update]
  · have e2 := updateKeyOp_live (updateKeyOp s uri X).2.1 uri h _ X hl2 hg2
    rw [e2]
    dsimp only
    rw [update_snd]
    simp [contents_update, jsDiffers]

/-- Witness for C5 (amended): the `"hello"` → `"world"` update on a freshly
registered `"a"`. -/
theorem C5_update_notification_witness :
    ((updateKeyOp (addOp resolver0 "a" { contents := some (.str "hello") }).2 "a" "world").2.2
      = if jsDiffers "world" (.str "hello") then [Event.notify 0] else []) ∧
    readAtKey (updateKeyOp (addOp resolver0 "a" { contents := some (.str "hello") }).2
        "a" "world").2.1 "a" = some "world" ∧
    (updateKeyOp
        (updateKeyOp (addOp resolver0 "a" { contents := some (.str "hello") }).2 "a" "world").2.1
        "a" "world").2.2 = [] :=
  C5_update_notification (addOp resolver0 "a" { contents := some (.str "hello") }).2
    "a" 0 _ "world"
    (wf_addOp resolver0 "a" { contents := some (.str "hello") } wf_resolver0) rfl rfl

/-- Claim C6: for a holder whose registration configured save callback `cb`,
`saveContents x` invokes `cb` with `x` exactly once (exactly one save-call
event) and then performs the same replace-and-notify as `update`: the payload
reads back as `x`, with exactly one change notification when `x` differs from
the prior payload and none otherwise; for a holder whose registration
configured no save callback, `saveContents` is a no-op — no callback
invocation, no state change, no notification. -/
theorem C6_saveContents_semantics (s : Resolver) (h : Nat)
    (rc : DisposableRefCounter) (x : String) (hg : s.counters[h]? = some rc)
    (hem : rc.object.emitterDisposed = false) :
    (∀ cb, rc.object.options.onSave = some cb →
      (saveHOp s h x).2 = Event.saveCall cb x ::
        (if jsDiffers x rc.object.contents then [Event.notify rc.object.rid] else []) ∧
      readAt (saveHOp s h x).1 h = some x) ∧
    (rc.object.options.onSave = none → saveHOp s h x = (s, [])) := by
  constructor
  · intro cb ho
    have hsv : rc.object.saveContents x =
        ((rc.object.update { contents := some x }).1,
          Event.saveCall cb x :: (rc.object.update { contents := some x }).2) := by
      unfold DisposableMutableResource.saveContents
      rw [ho]
    constructor
    · unfold saveHOp
      rw [hg]
      dsimp only
      rw [hsv]
      dsimp only
      rw [update_snd]
      dsimp only
      by_cases hd : jsDiffers x rc.object.contents
      · simp [hd, DisposableMutableResource.fireEvents, hem]
      · simp [hd]
    · unfold saveHOp
      rw [hg]
      dsimp only
      rw [hsv]
      unfold readAt
      dsimp only
      rw [getElem?_modifyAt_self _ _ _ _ hg]
      simp [readContents_update]
  · intro ho
    have hsv : rc.object.saveContents x = (rc.object, []) := by
      unfold DisposableMutableResource.saveContents
      rw [ho]
    unfold saveHOp
    rw [hg]
    dsimp only
    rw [hsv]
    rw [modifyAt_eq_self _ _ _ rc hg rfl]

/-- Witness for C6: the holder `"a"` registered with callback `7` and empty
payload, saved with `"x"`; and the holder `"b"` registered without a
callback. -/
theorem C6_saveContents_semantics_witness :
    ((saveHOp (addOp resolver0 "a"
        { contents := some (.str ""), onSave := some 7, readOnly := some false }).2 0 "x").2
      = [Event.saveCall 7 "x", Event.notify 0] ∧
     readAt (saveHOp (addOp resolver0 "a"
        { contents := some (.str ""), onSave := some 7, readOnly := some false }).2 0 "x").1 0
      = some "x") ∧
    saveHOp (addOp resolver0 "b" {}).2 0 "x" = ((addOp resolver0 "b" {}).2, []) := by
  constructor
  · have hmain := (C6_saveContents_semantics (addOp resolver0 "a"
        { contents := some (.str ""), onSave := some 7, readOnly := some false }).2
        0 _ "x" rfl rfl).1 7 rfl
    simpa [jsDiffers] using hmain
  · exact (C6_saveContents_semantics (addOp resolver0 "b" {}).2 0 _ "x" rfl rfl).2 rfl

/-- Claim C8: after `register("a", contents "hello")`, `readContents`
resolves to `"hello"`; a subsequent `update("a", "world")` fires exactly one
change notification, after which `readContents` resolves to `"world"`;
`readContents` always returns the holder's current payload, resolving a
pending asynchronous seed to its value first. -/
theorem C8_read_update_round_trip :
    (∀ s uri, lookupKey s.cache uri = none →
      readAtKey (addOp s uri { contents := some (.str "hello") }).2 uri = some "hello" ∧
      (updateKeyOp (addOp s uri { contents := some (.str "hello") }).2 uri "world").2.2
        = [Event.notify s.counters.length] ∧
      readAtKey (updateKeyOp (addOp s uri { contents := some (.str "hello") }).2
        uri "world").2.1 uri = some "world") ∧
    (∀ r : DisposableMutableResource, r.readContents = r.contents.resolved) ∧
    (∀ s uri p, lookupKey s.cache uri = none →
      readAtKey (addOp s uri { contents := some (.pending p) }).2 uri = some p) := by
  refine ⟨?_, fun r => rfl, ?_⟩
  · intro s uri hl
    have e0 := addOp_fresh s uri { contents := some (.str "hello") } hl
    have hl1 : lookupKey (addOp s uri { contents := some (.str "hello") }).2.cache uri
        = some s.counters.length := by
      rw [e0]
      exact lookupKey_setKey_self _ _ _
    have hg1 : (addOp s uri { contents := some (.str "hello") }).2.counters[s.counters.length]?
        = some
            { refs := 0 + 1, key := uri,
              object :=
                DisposableMutableResource.mk0 s.counters.length uri
                  { contents := some (.str "hello") },
              firedCount := 0 } := by
      rw [e0]
      exact getElem?_append_new _ _
    refine ⟨?_, ?_, ?_⟩
    · rw [readAtKey_of _ uri s.counters.length _ hl1 hg1]
      rfl
    · rw [updateKeyOp_live _ uri s.counters.length _ "world" hl1 hg1]
      rw [update_snd]
      simp [DisposableMutableResource.mk0, jsDiffers, DisposableMutableResource.fireEvents]
    · have e1 := updateKeyOp_live _ uri s.counters.length _ "world" hl1 hg1
      have hl2 : lookupKey (updateKeyOp (addOp s uri { contents := some (.str "hello") }).2
          uri "world").2.1.cache uri = some s.counters.length := by
        rw [e1]
        exact hl1
      have hg2 := getElem?_modifyAt_self
        (addOp s uri { contents := some (.str "hello") }).2.counters s.counters.length
        (fun rc' =>
          { rc' with
              object :=
                (({ refs := 0 + 1, key := uri,
                    object :=
                      DisposableMutableResource.mk0 s.counters.length uri
                        { contents := some (.str "hello") },
                    firedCount := 0 } : DisposableRefCounter).object.update
                  { contents := some "world" }).1 }) _ hg1
      rw [readAtKey_of _ uri s.counters.length _ hl2 (by rw [e1]; exact hg2)]
      rw [readContents_update]
  · intro s uri p hl
    have e0 := addOp_fresh s uri { contents := some (.pending p) } hl
    have hl1 : lookupKey (addOp s uri { contents := some (.pending p) }).2.cache uri
        = some s.counters.length := by
      rw [e0]
      exact lookupKey_setKey_self _ _ _
    have hg1 : (addOp s uri { contents := some (.pending p) }).2.counters[s.counters.length]?
        = some
            { refs := 0 + 1, key := uri,
              object :=
                DisposableMutableResource.mk0 s.counters.length uri
                  { contents := some (.pending p) },
              firedCount := 0 } := by
      rw [e0]
      exact getElem?_append_new _ _
    rw [readAtKey_of _ uri s.counters.length _ hl1 hg1]
    rfl

/-- Witness for C8: the scenario run on the empty registry with key `"a"`,
and a pending seed `"later"` under key `"p"`. -/
theorem C8_read_update_round_trip_witness :
    readAtKey (addOp resolver0 "a" { contents := some (.str "hello") }).2 "a"
      = some "hello" ∧
    (updateKeyOp (addOp resolver0 "a" { contents := some (.str "hello") }).2 "a" "world").2.2
      = [Event.notify 0] ∧
    readAtKey (updateKeyOp (addOp resolver0 "a" { contents := some (.str "hello") }).2
      "a" "world").2.1 "a" = some "world" ∧
    readAtKey (addOp resolver0 "p" { contents := some (.pending "later") }).2 "p"
      = some "later" :=
  ⟨(C8_read_update_round_trip.1 resolver0 "a" rfl).1,
   (C8_read_update_round_trip.1 resolver0 "a" rfl).2.1,
   (C8_read_update_round_trip.1 resolver0 "a" rfl).2.2,
   C8_read_update_round_trip.2.2 resolver0 "p" "later" rfl⟩

/-- Claim C4 (counterexample): register `"a"` (count 1) and dispose twice.
The second dispose — on the already fully released handle — drives the stored
reference count to −1, below zero: the decrement in
`DisposableRefCounter.dispose` is unguarded.  (The teardown still ran exactly
once.) -/
theorem C4_underflow_counterexample :
    refsAt (disposeH (disposeH (addOp resolver0 "a" {}).2 0) 0) 0 = some (-1) ∧
    firedAt (disposeH (disposeH (addOp resolver0 "a" {}).2 0) 0) 0 = some 1 := by
  constructor <;> rfl

/-- Claim C4 (amended): every `dispose` decrements the stored count by one
unconditionally — on a fully released handle the count becomes negative, so
the "does not drive the count below zero" part of the claim is false — but
the teardown fires at most once across any sequence of disposes: over `k`
successive disposes the teardown-run counter grows by one exactly when the
count passes from positive through zero (`1 ≤ refs ≤ k`), and in particular a
handle whose count is already `≤ 0` never fires the teardown again. -/
theorem C4_dispose_underflow (s : Resolver) (h : Nat) (rc : DisposableRefCounter)
    (hg : s.counters[h]? = some rc) :
    refsAt (disposeH s h) h = some (rc.refs - 1) ∧
    (∀ k : Nat, firedAt (disposeIter h k s) h =
      some (rc.firedCount + if 1 ≤ rc.refs ∧ rc.refs ≤ (k : Int) then 1 else 0)) ∧
    (rc.refs ≤ 0 → ∀ k : Nat, firedAt (disposeIter h k s) h = some rc.firedCount) := by
  refine ⟨?_, fun k => disposeIter_fired s h rc k hg, ?_⟩
  · unfold refsAt
    rw [disposeH_counter s h rc hg]
    dsimp only [Option.map]
    split <;> rfl
  · intro hle k
    rw [disposeIter_fired s h rc k hg]
    have hno : ¬(1 ≤ rc.refs ∧ rc.refs ≤ (k : Int)) := by omega
    rw [if_neg hno]
    simp

/-- Witness for C4 (amended): the handle for `"a"` right after registration:
one dispose takes the count from 1 to 0, and over three successive disposes
the teardown fires exactly once. -/
theorem C4_dispose_underflow_witness :
    refsAt (disposeH (addOp resolver0 "a" {}).2 0) 0 = some ((0 + 1 : Int) - 1) ∧
    firedAt (disposeIter 0 3 (addOp resolver0 "a" {}).2) 0
      = some (0 + if 1 ≤ (0 + 1 : Int) ∧ (0 + 1 : Int) ≤ ((3 : Nat) : Int) then 1 else 0) := by
  have hmain := C4_dispose_underflow (addOp resolver0 "a" {}).2 0
    { refs := 0 + 1, key := "a",
      object := DisposableMutableResource.mk0 0 "a" {}, firedCount := 0 } rfl
  exact ⟨hmain.1, hmain.2.1 3⟩

/-- Claim C1: the reference-count lifecycle of the registry.  The
well-formedness invariant `WF` holds in every state reachable from the empty
registry; `register` on a fresh identifier succeeds with a new handle whose
count is 1 and a live cache entry; `acquire` (`resolve`) on a live entry
returns the same handle with the count incremented by one and the entry kept;
`dispose` decrements the count by one; exactly when the count reaches zero
the underlying holder is disposed (its change emitter detached, its teardown
run once) and the identifier is removed from the registry, and otherwise the
dispose changes neither the cache nor the emitter nor the teardown counter;
while the count stays at least one, no operation removes the entry; and once
a holder's emitter is detached, no operation ever fires its change
notification again. -/
theorem C1_refcount_lifecycle :
    (∀ ops : List Op, WF (runOps resolver0 ops)) ∧
    (∀ s uri opts, lookupKey s.cache uri = none →
      (addOp s uri opts).1 = .ok s.counters.length ∧
      refsAt (addOp s uri opts).2 s.counters.length = some 1 ∧
      lookupKey (addOp s uri opts).2.cache uri = some s.counters.length) ∧
    (∀ s uri h rc, lookupKey s.cache uri = some h → s.counters[h]? = some rc →
      (resolveOp s uri).1 = .ok h ∧
      refsAt (resolveOp s uri).2 h = some (rc.refs + 1) ∧
      lookupKey (resolveOp s uri).2.cache uri = some h) ∧
    (∀ s h rc, s.counters[h]? = some rc →
      refsAt (disposeH s h) h = some (rc.refs - 1)) ∧
    (∀ s h rc, s.counters[h]? = some rc →
      (rc.refs = 1 →
        emitterAt (disposeH s h) h = some true ∧
        firedAt (disposeH s h) h = some (rc.firedCount + 1) ∧
        lookupKey (disposeH s h).cache rc.key = none) ∧
      (rc.refs ≠ 1 →
        (disposeH s h).cache = s.cache ∧
        emitterAt (disposeH s h) h = emitterAt s h ∧
        firedAt (disposeH s h) h = firedAt s h)) ∧
    (∀ s op k h rc, WF s → lookupKey s.cache k = some h → s.counters[h]? = some rc →
      (op = Op.disposeH h → 2 ≤ rc.refs) →
      lookupKey (step s op).1.cache k = some h) ∧
    (∀ s op h, WF s → emitterAt s h = some true →
      Event.notify h ∉ (step s op).2) := by
  refine ⟨?_, ?_, ?_, ?_, ?_, ?_, ?_⟩
  · intro ops
    exact wf_runOps ops resolver0 wf_resolver0
  · intro s uri opts hl
    rw [addOp_fresh s uri opts hl]
    refine ⟨rfl, ?_, ?_⟩
    · unfold refsAt
      dsimp only
      rw [getElem?_append_new]
      rfl
    · exact lookupKey_setKey_self _ _ _
  · intro s uri h rc hl hg
    rw [resolveOp_live s uri h hl]
    refine ⟨rfl, ?_, hl⟩
    unfold refsAt
    dsimp only
    rw [getElem?_modifyAt_self _ _ _ _ hg]
    rfl
  · intro s h rc hg
    unfold refsAt
    rw [disposeH_counter s h rc hg]
    dsimp only [Option.map]
    split <;> rfl
  · intro s h rc hg
    constructor
    · intro h1
      have hz : rc.refs - 1 = 0 := by omega
      rw [disposeH_eq s h rc hg, if_pos hz]
      refine ⟨?_, ?_, ?_⟩
      · unfold emitterAt
        dsimp only
        rw [getElem?_modifyAt_self _ _ _ _ hg]
        rfl
      · unfold firedAt
        dsimp only
        rw [getElem?_modifyAt_self _ _ _ _ hg]
        rfl
      · dsimp only
        exact lookupKey_delKey_self _ _
    · intro h1
      have hz : ¬(rc.refs - 1 = 0) := by omega
      rw [disposeH_eq s h rc hg, if_neg hz]
      refine ⟨rfl, ?_, ?_⟩
      · unfold emitterAt
        dsimp only
        rw [getElem?_modifyAt_self _ _ _ _ hg, hg]
        rfl
      · unfold firedAt
        dsimp only
        rw [getElem?_modifyAt_self _ _ _ _ hg, hg]
        rfl
  · intro s op k h rc wf hl hg hguard
    exact cache_presence_step s op k h rc wf hl hg hguard
  · intro s op h wf hem
    exact no_notify_after_dispose s op h wf hem

/-- Witness for C1: the key `"a"` on the empty registry — register, acquire,
dispose down to removal, and no notification from a disposed holder. -/
theorem C1_refcount_lifecycle_witness :
    WF (runOps resolver0 [Op.add "a" {}, Op.resolve "a"]) ∧
    (addOp resolver0 "a" {}).1 = .ok 0 ∧
    refsAt (addOp resolver0 "a" {}).2 0 = some 1 ∧
    refsAt (resolveOp (addOp resolver0 "a" {}).2 "a").2 0 = some ((0 + 1 : Int) + 1) ∧
    refsAt (disposeH (addOp resolver0 "a" {}).2 0) 0 = some ((0 + 1 : Int) - 1) ∧
    lookupKey (disposeH (addOp resolver0 "a" {}).2 0).cache "a" = none ∧
    lookupKey (step (resolveOp (addOp resolver0 "a" {}).2 "a").2
      (Op.disposeH 0)).1.cache "a" = some 0 ∧
    Event.notify 0 ∉ (step (disposeH (addOp resolver0 "a" {}).2 0)
      (Op.updateH 0 { contents := some "z" })).2 := by
  have hmain := C1_refcount_lifecycle
  refine ⟨hmain.1 [Op.add "a" {}, Op.resolve "a"],
    (hmain.2.1 resolver0 "a" {} rfl).1,
    (hmain.2.1 resolver0 "a" {} rfl).2.1, ?_, ?_, ?_, ?_, ?_⟩
  · exact (hmain.2.2.1 (addOp resolver0 "a" {}).2 "a" 0 _ rfl rfl).2.1
  · exact hmain.2.2.2.1 (addOp resolver0 "a" {}).2 0 _ rfl
  · exact ((hmain.2.2.2.2.1 (addOp resolver0 "a" {}).2 0 _ rfl).1 rfl).2.2
  · exact hmain.2.2.2.2.2.1 (resolveOp (addOp resolver0 "a" {}).2 "a").2
      (Op.disposeH 0) "a" 0 _
      (wf_resolveOp _ "a" (wf_addOp resolver0 "a" {} wf_resolver0)) rfl rfl
      (fun _ => by decide)
  · exact hmain.2.2.2.2.2.2 (disposeH (addOp resolver0 "a" {}).2 0)
      (Op.updateH 0 { contents := some "z" }) 0
      (wf_disposeH _ 0 (wf_addOp resolver0 "a" {} wf_resolver0)) rfl

end Theia
